import Mathlib

/-!
Shallow embedding of `weeklyreport.py` (saggitles/Weekly-support-Report):
a linear script that builds a Word report (python-docx `Document`) from
aggregated ticket data.  The document body is modelled as an ordered list of
blocks (paragraphs and tables); a paragraph is a list of runs; a table is a
list of rows of cells.  Numeric cell values rendered through Python's
`str`/f-strings are modelled over exact integers: the script's `Percentage`
column is `(count / total * 100).round(2)`, a float whose value is `d / 100`
for an integer number of hundredths `d`, and Python's `str` of such a float
prints the shortest decimal form (trailing zeros stripped, at least one
fractional digit).
-/

namespace WeeklyReport


/-- A text run: the text span plus the formatting attributes the script
touches (`run.bold/italic/underline`, `run.font.name/size/color`). -/
structure Run where
  text : String
  bold : Bool := false
  italic : Bool := false
  underline : Bool := false
  fontName : Option String := none
  fontSizePt : Option Nat := none
  fontColorRGB : Option (Nat × Nat × Nat) := none
deriving Repr, DecidableEq

/-- A paragraph: an ordered list of runs plus the alignment flag the script
sets (`paragraph.alignment = WD_ALIGN_PARAGRAPH.CENTER`). -/
structure Paragraph where
  runs : List Run
  centered : Bool := false
deriving Repr, DecidableEq

/-- Derived paragraph text: concatenation of its run texts. -/
def Paragraph.text (p : Paragraph) : String :=
  String.join (p.runs.map Run.text)

/-- Border attributes passed to `set_cell_border` (`sz`, `val`, `color`). -/
structure BorderAttrs where
  sz : Nat
  val : String
  color : String
deriving Repr, DecidableEq

/-- A table cell: its text (python-docx `cell.text`) plus the formatting the
script applies to cells: appended `w:shd` shading fills, paragraph centering,
run emphasis, and appended border elements (side tag with attributes). -/
structure TableCell where
  text : String
  shadings : List String := []
  centered : Bool := false
  boldRuns : Bool := false
  runColorRGB : Option (Nat × Nat × Nat) := none
  runSizePt : Option Nat := none
  borders : List (String × BorderAttrs) := []
deriving Repr, DecidableEq

/-- A fresh empty cell as produced by `doc.add_table` / `table.add_row`. -/
def mkCell (s : String) : TableCell := { text := s }

/-- A table: an ordered list of rows, each an ordered list of cells. -/
structure Table where
  rows : List (List TableCell)
deriving Repr, DecidableEq

/-- A block-level element of the document body. -/
inductive Block where
  | para (p : Paragraph)
  | table (t : Table)
deriving Repr, DecidableEq

/-- Cell texts of a table, row by row. -/
def Table.cellTexts (t : Table) : List (List String) :=
  t.rows.map (fun r => r.map TableCell.text)

/-- Shape of a table: the list of row lengths. -/
def Table.shape (t : Table) : List Nat :=
  t.rows.map List.length

/-- Python's `str` of a non-negative float whose exact value is `d / 100`
(the form every `round(2)` percentage in the script has): shortest decimal
form, keeping at least one fractional digit.  `str(60.0) = "60.0"`,
`str(33.33) = "33.33"`, `str(33.3) = "33.3"`, `str(0.05) = "0.05"`. -/
def pyFloatRepr (d : Nat) : String :=
  let q := d / 100
  let r := d % 100
  if r = 0 then Nat.repr q ++ ".0"
  else if r % 10 = 0 then Nat.repr q ++ "." ++ Nat.repr (r / 10)
  else if r < 10 then Nat.repr q ++ ".0" ++ Nat.repr r
  else Nat.repr q ++ "." ++ Nat.repr r

/-- One record of the `status_counts` frame: normalized status, the
`Percentage` column (a `round(2)` float, kept as exact hundredths) and the
integer `Count` column. -/
structure StatusRecord where
  status : String
  pctHundredths : Nat
  count : Nat
deriving Repr, DecidableEq

/-- `status_colors` lookup with default `'FFFFFF'`
(`status_colors.get(status, 'FFFFFF')`). -/
def status_colors (s : String) : String :=
  if s = "Done" then "A9D08E"
  else if s = "In Progress" then "FFD966"
  else if s = "Scaled" then "BDD7EE"
  else if s = "Won't do" then "D9D9D9"
  else "FFFFFF"

/-- The STATUS table as the script leaves it before the data loop:
`doc.add_table(rows=1, cols=3)`, header texts `STATUS` / `%` / `# TICKETS`,
dark-gray shading, centering and white bold 11pt runs on each header cell. -/
def status_table_init : Table :=
  ⟨[["STATUS", "%", "# TICKETS"].map (fun s =>
    { text := s, shadings := ["404040"], centered := true, boldRuns := true,
      runColorRGB := some (255, 255, 255), runSizePt := some 11 })]⟩

/-- One data row of the STATUS table (loop body at the `status_counts`
iteration): cell texts `status`, `f"{Percentage}%"`, `str(int(Count))`;
each cell shaded with the status color; columns 1 and 2 centered. -/
def statusRowCells (r : StatusRecord) : List TableCell :=
  let color := status_colors r.status
  [ { text := r.status, shadings := [color] },
    { text := pyFloatRepr r.pctHundredths ++ "%", shadings := [color], centered := true },
    { text := Nat.repr r.count, shadings := [color], centered := true } ]

/-- `table.add_row` followed by filling the new row's cells. -/
def addStatusRow (t : Table) (r : StatusRecord) : Table :=
  ⟨t.rows ++ [statusRowCells r]⟩

/-- The `for _, row_data in status_counts.iterrows()` population loop. -/
def populateStatusTable (t : Table) (data : List StatusRecord) : Table :=
  data.foldl addStatusRow t

/-- The border attributes used by `style_table_like_image`
(`{"sz": 4, "val": "single", "color": "#000000"}`). -/
def styleBorderAttrs : BorderAttrs := ⟨4, "single", "#000000"⟩

/-- `set_cell_border(cell, top=a, bottom=a, left=a, right=a)`: appends one
border element per side to the cell properties. -/
def set_cell_border (c : TableCell) (a : BorderAttrs) : TableCell :=
  { c with borders := c.borders ++ [("top", a), ("bottom", a), ("left", a), ("right", a)] }

/-- Header styling applied per cell of `table.rows[0]`: append a light blue
`w:shd` fill `B8CCE4`, center the cell paragraphs, bold their runs. -/
def styleHeaderCell (c : TableCell) : TableCell :=
  { c with shadings := c.shadings ++ ["B8CCE4"], centered := true, boldRuns := true }

/-- `style_table_like_image(table)`: styles `table.rows[0]` (shading, bold,
centering) and then applies borders to every cell of every row.  Accessing
`table.rows[0]` on a rowless table raises in the source, modelled as `none`. -/
def style_table_like_image (t : Table) : Option Table :=
  match t.rows with
  | [] => none
  | r0 :: rest =>
      some ⟨((r0.map styleHeaderCell) :: rest).map
        (fun r => r.map (fun c => set_cell_border c styleBorderAttrs))⟩

/-- The new paragraph built by `insert_paragraph_after`: an empty `w:p`, with
one run holding `text` added only when `text` is truthy (so `None` and the
empty string both give a paragraph with no runs). -/
def newParagraphFor (text : Option String) : Paragraph :=
  match text with
  | some s => if s = "" then ⟨[], false⟩ else ⟨[{ text := s }], false⟩
  | none => ⟨[], false⟩

/-- `insert_paragraph_after(paragraph, text)` where `paragraph` is the body
block at index `i`: `paragraph._p.addnext(new_p)` splices the new paragraph
element immediately after it.  Returns the new body. -/
def insert_paragraph_after (doc : List Block) (i : Nat) (text : Option String) :
    List Block :=
  doc.take (i + 1) ++ [Block.para (newParagraphFor text)] ++ doc.drop (i + 1)

/-- The table built by `doc.add_table(rows=rows, cols=cols)`: a `rows × cols`
grid of empty cells. -/
def mkEmptyTable (rows cols : Nat) : Table :=
  ⟨List.replicate rows (List.replicate cols (mkCell ""))⟩

/-- `insert_table_after(doc, paragraph, rows, cols)` where `paragraph` is the
body block at index `i`: the table is appended at the end of the body
(`doc.add_table`), removed again (`body.remove(tbl._tbl)` — the `eraseIdx` of
its position, the old body length), and re-inserted right after the
paragraph's element (`body.insert(idx + 1, tbl._tbl)` with
`idx = list(body).index(paragraph._p)`, the element's index `i`).  Returns
the new body and the table handle. -/
def insert_table_after (doc : List Block) (i : Nat) (rows cols : Nat) :
    List Block × Table :=
  let tbl := mkEmptyTable rows cols
  let body := doc ++ [Block.table tbl]
  let body := body.eraseIdx doc.length
  (body.take (i + 1) ++ [Block.table tbl] ++ body.drop (i + 1), tbl)

/-- Modelled from the spec: derived text of a block, the text the Anchor
Resolver matches against — a paragraph's run concatenation; for a table, the
concatenation of its cell texts (the repository has no table anchors). -/
def Block.derivedText : Block → String
  | Block.para p => p.text
  | Block.table t => String.join (t.cellTexts.map String.join)

/-- Modelled from the spec: the Anchor Resolver `find(predicate)` — scans
blocks in order and returns the index of the first block whose derived text
satisfies the predicate, or `none` (`NotFound`). -/
def findAnchor (p : String → Bool) : List Block → Option Nat
  | [] => none
  | b :: rest =>
      if p b.derivedText then some 0 else (findAnchor p rest).map (· + 1)

/-- Modelled from the spec: the highest-index-first removal pass of
`DeleteRange` — removes the `n` blocks at indices `s + n - 1, …, s`,
highest first. -/
def eraseDescFrom (doc : List Block) (s : Nat) : Nat → List Block
  | 0 => doc
  | n + 1 => eraseDescFrom (doc.eraseIdx (s + n)) s n

/-- Modelled from the spec: `DeleteRange(startAnchor, endAnchorExclusive)` —
the repository's scripts contain no delete operation, so this follows §4.3 of
the spec: resolve both anchors; if `start < end`, remove every block with
index in `[start, end)` in a single highest-index-first pass; if
`start >= end`, or either anchor is unresolved, leave the document unchanged
(an explicit no-op, not an error). -/
def deleteRange (doc : List Block) (startP endP : String → Bool) : List Block :=
  match findAnchor startP doc, findAnchor endP doc with
  | some s, some e => if s < e then eraseDescFrom doc s (e - s) else doc
  | some _, none => doc
  | none, _ => doc

/-- The paragraph added by `doc.add_paragraph(f'Total Tickets: {total_tickets}')`
at the end of the "Total support tickets" section: one run holding the
formatted f-string, where Python formats the integer `total_tickets` in
decimal. -/
def totalTicketsParagraph (total_tickets : Nat) : Paragraph :=
  ⟨[{ text := "Total Tickets: " ++ Nat.repr total_tickets }], false⟩

/-- One record of the filtered Jira frame, with the fields the USA table
renders.  `created` is the `Created` timestamp as a sort key; `createdStr` is
its `strftime('%m/%d/%Y')` rendering used for the cell text. -/
structure JiraRecord where
  issueKey : String
  issueId : String
  summary : String
  priority : String
  status : String
  created : Int
  createdStr : String
  sprint : String
deriving Repr, DecidableEq

/-- Header texts of the `usa_tickets_table` (and `global_tickets_table`). -/
def usaHeaderTexts : List String :=
  ["Issue key", "Issue id", "Summary", "Priority", "Status", "Created", "Sprint"]

/-- The `usa_tickets_table` as the script leaves it before the data loops:
`doc.add_table(rows=1, cols=7)`, the seven header texts, then
`style_table_like_image` (column widths are geometry and are not part of the
modelled cell state). -/
def usa_tickets_table_styled : Table :=
  (style_table_like_image ⟨[usaHeaderTexts.map mkCell]⟩).getD ⟨[]⟩

/-- One data row of the USA table: the seven rendered cell texts
(`str(...)` of each field, the formatted creation date in column 5). -/
def renderUsaCells (r : JiraRecord) : List TableCell :=
  [mkCell r.issueKey, mkCell r.issueId, mkCell r.summary, mkCell r.priority,
   mkCell r.status, mkCell r.createdStr, mkCell r.sprint]

/-- `table.add_row` followed by filling the new row from a Jira record. -/
def addUsaRow (t : Table) (r : JiraRecord) : Table :=
  ⟨t.rows ++ [renderUsaCells r]⟩

/-- The two population loops of the USA table: all of
`df_usa_highest.head(10)` first (counting `added_rows`), then — only when
`added_rows < 5` — `df_usa_high.head(10 - added_rows)`. -/
def populateUsaTable (highest high : List JiraRecord) : Table :=
  let t1 := (highest.take 10).foldl addUsaRow usa_tickets_table_styled
  let added_rows := (highest.take 10).length
  if added_rows < 5 then (high.take (10 - added_rows)).foldl addUsaRow t1 else t1

/-- Path of the support Excel workbook. -/
def excel_path : String := "D:\\l10 report\\Data\\tickets (10).xlsx"

/-- Path of the Jira export CSV. -/
def jira_path : String := "D:\\l10 report\\Data\\Jira Export CSV (all fields) 20250604054311.csv"

/-- Path of the phone-calls CSV. -/
def calls_path : String := "D:\\l10 report\\Data\\Calls.csv"

/-- The "Recent Support Activity" totals table (`total_counts_table`):
3×2, header `Activity Type` / `Total Count` (light blue shading, centered,
bold), a `Phone Calls` row and a `Support Tickets` row with the counts
rendered by `str(.)` and centered, then `set_cell_border` on every cell. -/
def total_counts_table (recent_calls_count recent_tickets_count : Nat) : Table :=
  ⟨[[{ text := "Activity Type", shadings := ["B8CCE4"], centered := true, boldRuns := true },
     { text := "Total Count", shadings := ["B8CCE4"], centered := true, boldRuns := true }],
    [mkCell "Phone Calls",
     { text := Nat.repr recent_calls_count, centered := true }],
    [mkCell "Support Tickets",
     { text := Nat.repr recent_tickets_count, centered := true }]].map
    (fun r => r.map (fun c => set_cell_border c ⟨4, "single", "#000000"⟩))⟩

/-- Outcome of the input-loading part of the script run. -/
inductive RunOutcome where
  | fileError (msg : String)
  | report (activity : Table)
deriving Repr, DecidableEq

/-- The script's input-file handling, in source order: the
`os.path.isfile(excel_path)` guard raises `FileNotFoundError` first (before
`doc = Document()` exists), then the `jira_path` guard; the `calls_path`
guard instead falls back to `recent_calls_count = 0` and the run continues
to build the document (projected here to the activity table it renders). -/
def reportPipeline (excelPresent jiraPresent callsPresent : Bool)
    (nRecentCalls nRecentTickets : Nat) : RunOutcome :=
  if !excelPresent then
    .fileError ("No se encontró el archivo de soporte: " ++ excel_path)
  else if !jiraPresent then
    .fileError ("No se encontró el archivo de Jira: " ++ jira_path)
  else
    let recent_calls_count := if callsPresent then nRecentCalls else 0
    .report (total_counts_table recent_calls_count nRecentTickets)

/-- The run copy performed by the fallback re-save: text plus the attributes
the recovery loop copies (`bold`, `italic`, `underline`, `font.name`,
`font.size`); the font color is not copied. -/
def simplifyRun (r : Run) : Run :=
  { text := r.text, bold := r.bold, italic := r.italic, underline := r.underline,
    fontName := r.fontName, fontSizePt := r.fontSizePt }

/-- The paragraph copy performed by the fallback re-save:
`temp_doc.add_paragraph()` (default alignment) plus one copied run per
original run. -/
def simplifyParagraph (p : Paragraph) : Paragraph :=
  ⟨p.runs.map simplifyRun, false⟩

/-- `len(table.columns)`: the column count of a table grid as built by
`doc.add_table` — the width of its first row. -/
def tableCols (t : Table) : Nat :=
  (t.rows.head?.map List.length).getD 0

/-- The table copy performed by the fallback re-save:
`temp_doc.add_table(rows=len(table.rows), cols=len(table.columns))` (all
cells empty and unformatted), then `cell.text` copied for every index within
both tables' bounds. -/
def simplifyTable (t : Table) : Table :=
  ⟨t.rows.map (fun r =>
    (r.map (fun c => mkCell c.text)).take (tableCols t)
      ++ List.replicate (tableCols t - r.length) (mkCell ""))⟩

/-- Body-level paragraphs of a document (`doc.paragraphs`). -/
def docParagraphs (doc : List Block) : List Paragraph :=
  doc.filterMap (fun b => match b with
    | Block.para p => some p
    | Block.table _ => none)

/-- Body-level tables of a document (`doc.tables`). -/
def docTables (doc : List Block) : List Table :=
  doc.filterMap (fun b => match b with
    | Block.para _ => none
    | Block.table t => some t)

/-- The degraded document the fallback branch builds (`temp_doc`): all
body paragraphs copied with their runs, then all tables copied with cell
texts only. -/
def simplifyDocument (doc : List Block) : List Block :=
  (docParagraphs doc).map (fun p => Block.para (simplifyParagraph p))
    ++ (docTables doc).map (fun t => Block.table (simplifyTable t))

/-- Output directory of the generated reports. -/
def output_dir : String := "D:\\l10 report\\reports"

/-- `os.path.join(output_dir, f'test_de_reporte_l10_full_{fecha}_time_{hora}.docx')`
with the platform path separator `sep`. -/
def mainReportFilename (sep fecha hora : String) : String :=
  output_dir ++ sep ++ "test_de_reporte_l10_full_" ++ fecha ++ "_time_" ++ hora ++ ".docx"

/-- `os.path.join(output_dir, f'fixed_report_{fecha}_time_{hora}.docx')`:
the filename of the degraded re-save. -/
def fallbackReportFilename (sep fecha hora : String) : String :=
  output_dir ++ sep ++ "fixed_report_" ++ fecha ++ "_time_" ++ hora ++ ".docx"

/-- One `doc.save` call of the final section: the target filename, the
document handed to the sink, and whether the save raised. -/
structure SaveAttempt where
  filename : String
  payload : List Block
  ok : Bool
deriving Repr, DecidableEq

/-- The `try: doc.save(...) except: ...` block of the final section: a save
of the full document under the timestamped name; only if it raises, one
more save of the degraded copy under the `fixed_report_` name (itself
allowed to fail, in which case only an error is printed). -/
def savePipeline (doc : List Block) (firstOk secondOk : Bool)
    (sep fecha hora : String) : List SaveAttempt :=
  if firstOk then
    [⟨mainReportFilename sep fecha hora, doc, true⟩]
  else
    [⟨mainReportFilename sep fecha hora, doc, false⟩,
     ⟨fallbackReportFilename sep fecha hora, simplifyDocument doc, secondOk⟩]

/-- The population loop appends exactly one rendered row per record, in
order, after the existing rows. -/
theorem populateStatusTable_rows (t : Table) (data : List StatusRecord) :
    (populateStatusTable t data).rows = t.rows ++ data.map statusRowCells := by
  induction data generalizing t with
  | nil => simp [populateStatusTable]
  | cons r rest ih =>
      simp [populateStatusTable] at ih ⊢
      rw [ih]
      simp [addStatusRow]

/-- C1: Table population preserves the header and never accumulates rows:
populating from a dataset only appends rows after row 0 (for any starting
table the result is the old rows followed by one rendered row per record in
dataset order); for the script's one-header-row STATUS table the result has
exactly `1 + |dataset|` rows, row 0 keeps the header cell texts
`STATUS` / `%` / `# TICKETS`, and the table is never empty. -/
theorem C1_status_table_population (t : Table) (data : List StatusRecord) :
    (populateStatusTable t data).rows = t.rows ++ data.map statusRowCells
    ∧ (populateStatusTable status_table_init data).rows.length = 1 + data.length
    ∧ ((populateStatusTable status_table_init data).rows.head?.map
        (fun row => row.map TableCell.text)) = some ["STATUS", "%", "# TICKETS"]
    ∧ (populateStatusTable status_table_init data).rows ≠ [] := by
  refine ⟨populateStatusTable_rows t data, ?_, ?_, ?_⟩
  · rw [populateStatusTable_rows]
    simp [status_table_init, Nat.add_comm]
  · rw [populateStatusTable_rows]
    simp [status_table_init]
  · rw [populateStatusTable_rows]
    simp [status_table_init]

/-- C2 counterexample: the script renders the `Percentage` float with
Python's default float formatting, so a percentage of exactly 60.0 with
count 6 yields the row `("Done", "60.0%", "6")`, not `("Done", "60.00%", "6")`
as the claim states. -/
theorem C2_pct_render_counterexample :
    (statusRowCells ⟨"Done", 6000, 6⟩).map TableCell.text ≠ ["Done", "60.00%", "6"]
    ∧ (statusRowCells ⟨"Done", 6000, 6⟩).map TableCell.text = ["Done", "60.0%", "6"] := by
  constructor
  · decide
  · decide

/-- C2 (amended): integer-typed fields are rendered by `str(int(.))` with no
decimal point; percentage fields are rounded to 2 decimal places but then
rendered with Python's shortest float form (trailing zeros stripped, at least
one fractional digit) followed by `%`, so 60.0 renders as `"60.0%"` (and
33.33 as `"33.33%"`), while a count of 6 renders as `"6"`. -/
theorem C2_cell_value_coercion (r : StatusRecord) :
    (statusRowCells r).map TableCell.text
      = [r.status, pyFloatRepr r.pctHundredths ++ "%", Nat.repr r.count]
    ∧ pyFloatRepr 6000 ++ "%" = "60.0%"
    ∧ pyFloatRepr 3333 ++ "%" = "33.33%"
    ∧ Nat.repr 6 = "6" := by
  refine ⟨?_, by decide, by decide, by decide⟩
  simp [statusRowCells]

/-- C8: the styling pass is a pure-formatting frame: on any table with at
least one row it succeeds, every cell's text is unchanged, and the row and
column structure is identical before and after styling. -/
theorem C8_style_table_frame (t : Table) (h : t.rows ≠ []) :
    ∃ t', style_table_like_image t = some t'
      ∧ t'.cellTexts = t.cellTexts
      ∧ t'.shape = t.shape := by
  obtain ⟨rows⟩ := t
  match rows, h with
  | r0 :: rest, _ =>
      refine ⟨_, rfl, ?_, ?_⟩
      · simp [Table.cellTexts, style_table_like_image, set_cell_border,
          styleHeaderCell, Function.comp]
      · simp [Table.shape, style_table_like_image, Function.comp]

/-- C8 witness: styling a concrete 2×2 table keeps its texts and shape. -/
theorem C8_style_table_frame_witness :
    ∃ t', style_table_like_image ⟨[[mkCell "a", mkCell "b"], [mkCell "c", mkCell "d"]]⟩ = some t'
      ∧ t'.cellTexts = Table.cellTexts ⟨[[mkCell "a", mkCell "b"], [mkCell "c", mkCell "d"]]⟩
      ∧ t'.shape = Table.shape ⟨[[mkCell "a", mkCell "b"], [mkCell "c", mkCell "d"]]⟩ :=
  C8_style_table_frame ⟨[[mkCell "a", mkCell "b"], [mkCell "c", mkCell "d"]]⟩ (by decide)

/-- C4: inserting after the paragraph at index `i` adds exactly one block at
index `i+1`, grows the body by exactly one block, leaves every block at
index `≤ i` and the relative order of all later blocks unchanged, and the
returned paragraph's derived text is `text` when non-empty and `""`
otherwise (also for `None`). -/
theorem C4_insert_paragraph_after (doc : List Block) (i : Nat) (p : Paragraph)
    (text : Option String) (hi : doc[i]? = some (Block.para p)) :
    (insert_paragraph_after doc i text).length = doc.length + 1
    ∧ (insert_paragraph_after doc i text)[i + 1]? = some (Block.para (newParagraphFor text))
    ∧ (∀ j, j ≤ i → (insert_paragraph_after doc i text)[j]? = doc[j]?)
    ∧ (∀ j, i + 1 < j → (insert_paragraph_after doc i text)[j]? = doc[j - 1]?)
    ∧ (newParagraphFor text).text = text.getD "" := by
  have hlen : i < doc.length := by
    by_contra hge
    rw [List.getElem?_eq_none (Nat.le_of_not_lt hge)] at hi
    exact Option.noConfusion hi
  have htake : (doc.take (i + 1)).length = i + 1 := by
    rw [List.length_take]
    omega
  refine ⟨?_, ?_, ?_, ?_, ?_⟩
  · simp [insert_paragraph_after, List.length_append, List.length_take,
      List.length_drop]
    omega
  · rw [insert_paragraph_after, List.append_assoc,
      List.getElem?_append_right (by omega), htake]
    simp
  · intro j hj
    rw [insert_paragraph_after, List.append_assoc,
      List.getElem?_append_left (by omega), List.getElem?_take]
    simp [Nat.lt_succ_of_le hj]
  · intro j hj
    rw [insert_paragraph_after, List.append_assoc,
      List.getElem?_append_right (by omega), htake]
    have hsub : j - (i + 1) = (j - i - 2) + 1 := by omega
    rw [hsub]
    simp only [List.cons_append, List.nil_append, List.getElem?_cons_succ]
    rw [List.getElem?_drop]
    congr 1
    omega
  · match text with
    | none => simp [newParagraphFor, Paragraph.text, String.join]
    | some s =>
        by_cases hs : s = ""
        · simp [newParagraphFor, hs, Paragraph.text, String.join]
        · simp [newParagraphFor, hs, Paragraph.text, String.join]

/-- C4 witness: inserting `"X"` after the first paragraph of a concrete
two-paragraph body. -/
theorem C4_insert_paragraph_after_witness :
    (insert_paragraph_after [Block.para ⟨[], false⟩, Block.para ⟨[{ text := "b" }], false⟩]
        0 (some "X")).length
      = [Block.para ⟨[], false⟩, Block.para ⟨[{ text := "b" }], false⟩].length + 1
    ∧ (newParagraphFor (some "X")).text = (some "X").getD "" := by
  have h := C4_insert_paragraph_after
    [Block.para ⟨[], false⟩, Block.para ⟨[{ text := "b" }], false⟩]
    0 ⟨[], false⟩ (some "X") (by decide)
  exact ⟨h.1, h.2.2.2.2⟩

/-- `(l ++ [x]).eraseIdx l.length = l`: removing the element just appended at
the end of the body restores the body. -/
theorem eraseIdx_append_singleton {α : Type} (l : List α) (x : α) :
    (l ++ [x]).eraseIdx l.length = l := by
  induction l with
  | nil => rfl
  | cons a rest ih => simp [List.eraseIdx, ih]

/-- C5: inserting a table after the paragraph at index `i` yields a body in
which the temporary append at the end has been undone — the result is the
original body with exactly the new table spliced in at index `i+1`, a net
growth of one block — and the returned handle is that inserted table, a
`rows × cols` grid of empty cells. -/
theorem C5_insert_table_after (doc : List Block) (i : Nat) (p : Paragraph)
    (rows cols : Nat) (hi : doc[i]? = some (Block.para p)) :
    (insert_table_after doc i rows cols).1
      = doc.take (i + 1) ++ [Block.table (mkEmptyTable rows cols)] ++ doc.drop (i + 1)
    ∧ (insert_table_after doc i rows cols).1.length = doc.length + 1
    ∧ (insert_table_after doc i rows cols).1[i + 1]?
        = some (Block.table (insert_table_after doc i rows cols).2)
    ∧ (insert_table_after doc i rows cols).2 = mkEmptyTable rows cols
    ∧ (insert_table_after doc i rows cols).2.shape = List.replicate rows cols
    ∧ (insert_table_after doc i rows cols).2.cellTexts
        = List.replicate rows (List.replicate cols "") := by
  have hlen : i < doc.length := by
    by_contra hge
    rw [List.getElem?_eq_none (Nat.le_of_not_lt hge)] at hi
    exact Option.noConfusion hi
  have hbody : (doc ++ [Block.table (mkEmptyTable rows cols)]).eraseIdx doc.length = doc :=
    eraseIdx_append_singleton doc _
  have h1 : (insert_table_after doc i rows cols).1
      = doc.take (i + 1) ++ [Block.table (mkEmptyTable rows cols)] ++ doc.drop (i + 1) := by
    simp only [insert_table_after, hbody]
  have htake : (doc.take (i + 1)).length = i + 1 := by
    rw [List.length_take]
    omega
  refine ⟨h1, ?_, ?_, rfl, ?_, ?_⟩
  · rw [h1]
    simp [List.length_append, List.length_take, List.length_drop]
    omega
  · rw [h1, List.append_assoc, List.getElem?_append_right (by omega), htake]
    simp [insert_table_after]
  · simp [insert_table_after, mkEmptyTable, Table.shape, Function.comp]
  · simp [insert_table_after, mkEmptyTable, Table.cellTexts, mkCell, Function.comp]

/-- C5 witness: inserting a 2×3 table after the only paragraph of a
one-block body. -/
theorem C5_insert_table_after_witness :
    (insert_table_after [Block.para ⟨[], false⟩] 0 2 3).1.length
        = [Block.para ⟨[], false⟩].length + 1
    ∧ (insert_table_after [Block.para ⟨[], false⟩] 0 2 3).2 = mkEmptyTable 2 3 := by
  have h := C5_insert_table_after [Block.para ⟨[], false⟩] 0 ⟨[], false⟩ 2 3 (by decide)
  exact ⟨h.2.1, h.2.2.2.1⟩

/-- A resolved anchor index is in bounds. -/
theorem findAnchor_lt_length (p : String → Bool) (doc : List Block) (i : Nat)
    (h : findAnchor p doc = some i) : i < doc.length := by
  induction doc generalizing i with
  | nil => exact Option.noConfusion h
  | cons b rest ih =>
      rw [findAnchor] at h
      by_cases hb : p b.derivedText
      · rw [if_pos hb] at h
        cases h
        simp
      · rw [if_neg hb] at h
        match hrest : findAnchor p rest with
        | none => rw [hrest] at h; exact Option.noConfusion h
        | some j =>
            rw [hrest] at h
            cases h
            have := ih j hrest
            simp
            omega

/-- The highest-index-first pass removes exactly the index window
`[s, s + n)`. -/
theorem eraseDescFrom_eq_take_drop (doc : List Block) (s n : Nat)
    (h : s + n ≤ doc.length) :
    eraseDescFrom doc s n = doc.take s ++ doc.drop (s + n) := by
  induction n generalizing doc with
  | zero => simp [eraseDescFrom]
  | succ n ih =>
      have htk : (doc.take (s + n)).length = s + n := by
        rw [List.length_take]; omega
      rw [eraseDescFrom]
      rw [ih (doc.eraseIdx (s + n))
        (by rw [List.length_eraseIdx, if_pos (by omega)]; omega)]
      rw [List.eraseIdx_eq_take_drop_succ]
      rw [List.take_append_of_le_length (by rw [htk]; omega),
        List.take_take, Nat.min_eq_left (by omega),
        List.drop_append_eq_append_drop, htk,
        List.drop_eq_nil_of_le htk.le]
      simp [Nat.add_assoc]

/-- C6: `DeleteRange` semantics (spec-modelled; the scripts contain no delete
code).  When both anchors resolve to `s` and `e`: if `s < e` the result is
exactly the document with the blocks at indices `[s, e)` removed (the prefix
before `s` followed by the suffix from `e`); if `s ≥ e` the document is
unchanged.  When either anchor is unresolved the operation is a no-op. -/
theorem C6_deleteRange (doc : List Block) (startP endP : String → Bool) :
    (∀ s e, findAnchor startP doc = some s → findAnchor endP doc = some e →
      (s < e → deleteRange doc startP endP = doc.take s ++ doc.drop e)
      ∧ (e ≤ s → deleteRange doc startP endP = doc))
    ∧ ((findAnchor startP doc = none ∨ findAnchor endP doc = none) →
        deleteRange doc startP endP = doc) := by
  constructor
  · intro s e hs he
    constructor
    · intro hlt
      have hel := findAnchor_lt_length endP doc e he
      simp only [deleteRange, hs, he]
      rw [if_pos hlt, eraseDescFrom_eq_take_drop doc s (e - s) (by omega),
        show s + (e - s) = e by omega]
    · intro hle
      simp only [deleteRange, hs, he]
      rw [if_neg (by omega)]
  · intro hnone
    rcases hnone with hn | hn
    · simp only [deleteRange, hn]
    · match hstart : findAnchor startP doc with
      | none => simp only [deleteRange, hstart]
      | some s => simp only [deleteRange, hstart, hn]

/-- C6 witness: spec scenario 3 — deleting from the paragraph `"100:"` up to
(excluding) `"USA Scaled Tickets"` in a three-paragraph body removes the
first two paragraphs. -/
theorem C6_deleteRange_witness :
    deleteRange
        [Block.para ⟨[{ text := "100:" }], false⟩,
         Block.para ⟨[{ text := "101:" }], false⟩,
         Block.para ⟨[{ text := "USA Scaled Tickets" }], false⟩]
        (fun t => t == "100:") (fun t => t == "USA Scaled Tickets")
      = [Block.para ⟨[{ text := "USA Scaled Tickets" }], false⟩] := by
  have h := (C6_deleteRange
    [Block.para ⟨[{ text := "100:" }], false⟩,
     Block.para ⟨[{ text := "101:" }], false⟩,
     Block.para ⟨[{ text := "USA Scaled Tickets" }], false⟩]
    (fun t => t == "100:") (fun t => t == "USA Scaled Tickets")).1
    0 2 (by decide) (by decide)
  rw [(h.1 (by omega) : _ = _)]
  decide

/-- C7: for every total-ticket count `n`, the totals paragraph's derived text
is exactly `"Total Tickets: "` followed by the decimal rendering of `n`, and
for `n = 42` it is exactly `"Total Tickets: 42"`. -/
theorem C7_total_tickets_text (n : Nat) :
    (totalTicketsParagraph n).text = "Total Tickets: " ++ Nat.repr n
    ∧ (totalTicketsParagraph 42).text = "Total Tickets: 42" := by
  constructor
  · simp [totalTicketsParagraph, Paragraph.text, String.join]
  · decide

/-- A fold of `addUsaRow` appends one rendered row per record, in order. -/
theorem foldl_addUsaRow_rows (t : Table) (l : List JiraRecord) :
    (l.foldl addUsaRow t).rows = t.rows ++ l.map renderUsaCells := by
  induction l generalizing t with
  | nil => simp
  | cons r rest ih =>
      simp only [List.foldl_cons, List.map_cons, ih, addUsaRow]
      simp

/-- The populated USA table, row for row. -/
theorem populateUsaTable_rows (highest high : List JiraRecord) :
    (populateUsaTable highest high).rows
      = usa_tickets_table_styled.rows
        ++ (highest.take 10).map renderUsaCells
        ++ (if (highest.take 10).length < 5
            then (high.take (10 - (highest.take 10).length)).map renderUsaCells
            else []) := by
  simp only [populateUsaTable]
  by_cases h5 : (highest.take 10).length < 5
  · rw [if_pos h5, if_pos h5, foldl_addUsaRow_rows, foldl_addUsaRow_rows,
      List.append_assoc]
  · rw [if_neg h5, if_neg h5, foldl_addUsaRow_rows, List.append_nil]

/-- C9: the "USA Tickets with Top Priority" table holds at most 10 data rows
after its 7-column header: its data rows are exactly the first (up to) 10
Highest-priority records, followed — only when fewer than 5 Highest rows were
added — by just enough High-priority records to bring the total to at most
10; with inputs sorted newest-first (as `sort_values(by='Created',
ascending=False)` produces), each appended group stays newest-first. -/
theorem C9_usa_tickets_table (highest high : List JiraRecord)
    (hhs : List.Pairwise (fun a b => b.created ≤ a.created) highest)
    (hls : List.Pairwise (fun a b => b.created ≤ a.created) high) :
    ((populateUsaTable highest high).rows.head?.map
        (fun row => row.map TableCell.text)) = some usaHeaderTexts
    ∧ usaHeaderTexts.length = 7
    ∧ (populateUsaTable highest high).rows.length - 1 ≤ 10
    ∧ (populateUsaTable highest high).rows.drop 1
        = (highest.take 10).map renderUsaCells
          ++ (if (highest.take 10).length < 5
              then (high.take (10 - (highest.take 10).length)).map renderUsaCells
              else [])
    ∧ List.Pairwise (fun a b => b.created ≤ a.created) (highest.take 10)
    ∧ List.Pairwise (fun a b => b.created ≤ a.created)
        (high.take (10 - (highest.take 10).length)) := by
  have hstyled : usa_tickets_table_styled.rows.length = 1 := by decide
  have hstyledTexts :
      (usa_tickets_table_styled.rows.head?.map
        (fun row => row.map TableCell.text)) = some usaHeaderTexts := by decide
  obtain ⟨r0, husa⟩ := List.length_eq_one.mp hstyled
  rw [husa] at hstyledTexts
  refine ⟨?_, by decide, ?_, ?_, ?_, ?_⟩
  · rw [populateUsaTable_rows, husa]
    simpa using hstyledTexts
  · rw [populateUsaTable_rows]
    by_cases h5 : (highest.take 10).length < 5
    · rw [if_pos h5]
      simp only [List.length_append, hstyled, List.length_map, List.length_take]
      simp only [List.length_take] at h5
      omega
    · rw [if_neg h5]
      simp only [List.length_append, hstyled, List.length_map, List.length_take,
        List.length_nil]
      simp only [List.length_take] at h5
      omega
  · rw [populateUsaTable_rows, husa]
    simp
  · exact List.Pairwise.sublist (List.take_sublist 10 highest) hhs
  · exact List.Pairwise.sublist (List.take_sublist _ high) hls

/-- C9 witness: two Highest records (created 100 then 50) and one High
record (created 30), all newest-first. -/
theorem C9_usa_tickets_table_witness :
    ((populateUsaTable
        [⟨"K-1", "1", "s1", "Highest", "To Do", 100, "05/01/2025", ""⟩,
         ⟨"K-2", "2", "s2", "Highest", "QA", 50, "04/01/2025", ""⟩]
        [⟨"K-3", "3", "s3", "High", "QA", 30, "03/01/2025", ""⟩]).rows.length - 1 ≤ 10)
    ∧ usaHeaderTexts.length = 7 := by
  have h := C9_usa_tickets_table
    [⟨"K-1", "1", "s1", "Highest", "To Do", 100, "05/01/2025", ""⟩,
     ⟨"K-2", "2", "s2", "Highest", "QA", 50, "04/01/2025", ""⟩]
    [⟨"K-3", "3", "s3", "High", "QA", 30, "03/01/2025", ""⟩]
    (by decide) (by decide)
  exact ⟨h.2.2.1, h.2.1⟩

/-- C10: input-file error handling is asymmetric: a missing support Excel
file or Jira CSV raises `FileNotFoundError` before any document content is
produced, while a missing calls CSV leaves the run error-free and renders
the "Phone Calls" cell of the activity table as exactly `"0"`. -/
theorem C10_input_file_asymmetry (jiraPresent callsPresent : Bool)
    (nRecentCalls nRecentTickets : Nat) :
    reportPipeline false jiraPresent callsPresent nRecentCalls nRecentTickets
      = .fileError ("No se encontró el archivo de soporte: " ++ excel_path)
    ∧ reportPipeline true false callsPresent nRecentCalls nRecentTickets
      = .fileError ("No se encontró el archivo de Jira: " ++ jira_path)
    ∧ reportPipeline true true false nRecentCalls nRecentTickets
      = .report (total_counts_table 0 nRecentTickets)
    ∧ ((total_counts_table 0 nRecentTickets).cellTexts[1]?
        = some ["Phone Calls", "0"]) := by
  refine ⟨rfl, rfl, rfl, ?_⟩
  simp only [total_counts_table, Table.cellTexts, mkCell, set_cell_border,
    List.map_cons, List.map_nil, List.getElem?_cons_succ, List.getElem?_cons_zero]
  decide

/-- The two filenames always differ (their fixed middles have different
lengths, 25 versus 13 characters). -/
theorem mainReportFilename_ne (sep fecha hora : String) :
    mainReportFilename sep fecha hora ≠ fallbackReportFilename sep fecha hora := by
  intro h
  have hlen := congrArg String.length h
  simp only [mainReportFilename, fallbackReportFilename, String.length_append] at hlen
  have h1 : ("test_de_reporte_l10_full_" : String).length = 25 := by decide
  have h2 : ("fixed_report_" : String).length = 13 := by decide
  rw [h1, h2] at hlen
  omega

/-- C3: on persistence failure the pipeline retries exactly once with a
degraded copy: when the first save succeeds there is exactly one save of the
full document and no fallback document is produced; when it raises, exactly
one further save is attempted, under a different filename, whose payload is
the simplified document — paragraphs keeping run texts with the basic run
formatting (bold/italic/underline/font name/size, dropping color and
alignment) and tables keeping only their cell texts (every copied cell
unshaded, unbordered, uncentered, unemphasized). -/
theorem C3_save_fallback (doc : List Block) (secondOk : Bool)
    (sep fecha hora : String) :
    savePipeline doc true secondOk sep fecha hora
      = [⟨mainReportFilename sep fecha hora, doc, true⟩]
    ∧ savePipeline doc false secondOk sep fecha hora
      = [⟨mainReportFilename sep fecha hora, doc, false⟩,
         ⟨fallbackReportFilename sep fecha hora, simplifyDocument doc, secondOk⟩]
    ∧ mainReportFilename sep fecha hora ≠ fallbackReportFilename sep fecha hora
    ∧ (∀ p : Paragraph,
        (simplifyParagraph p).runs.map Run.text = p.runs.map Run.text
        ∧ (∀ r : Run, simplifyRun r
            = { text := r.text, bold := r.bold, italic := r.italic,
                underline := r.underline, fontName := r.fontName,
                fontSizePt := r.fontSizePt, fontColorRGB := none }))
    ∧ (∀ t : Table, (∀ row ∈ t.rows, row.length = tableCols t) →
        (simplifyTable t).cellTexts = t.cellTexts
        ∧ ∀ row ∈ (simplifyTable t).rows, ∀ c ∈ row,
            c.shadings = [] ∧ c.borders = [] ∧ c.centered = false
            ∧ c.boldRuns = false) := by
  refine ⟨rfl, rfl, mainReportFilename_ne sep fecha hora, ?_, ?_⟩
  · intro p
    refine ⟨?_, fun r => rfl⟩
    rw [simplifyParagraph, List.map_map]
    rfl
  · intro t ht
    constructor
    · rw [Table.cellTexts, simplifyTable]
      simp only [List.map_map]
      refine List.map_congr_left ?_
      intro row hrow
      have hlen : row.length = tableCols t := ht row hrow
      simp only [Function.comp]
      rw [← hlen, Nat.sub_self, List.replicate_zero, List.append_nil,
        List.take_of_length_le (by simp), List.map_map]
      rfl
    · intro row hrow c hc
      rw [simplifyTable] at hrow
      simp only [List.mem_map] at hrow
      obtain ⟨srcRow, _, hsrc⟩ := hrow
      rw [← hsrc] at hc
      rcases List.mem_append.mp hc with hmem | hmem
      · obtain ⟨c0, _, hc0⟩ := List.mem_map.mp (List.mem_of_mem_take hmem)
        rw [← hc0]
        exact ⟨rfl, rfl, rfl, rfl⟩
      · rw [List.eq_of_mem_replicate hmem]
        exact ⟨rfl, rfl, rfl, rfl⟩

/-- C3 witness: a concrete two-block document (one paragraph, one 1×1
table), failing first save: the fallback is exactly one further attempt,
under a different filename, with the simplified document. -/
theorem C3_save_fallback_witness :
    savePipeline [Block.para ⟨[{ text := "a" }], true⟩, Block.table ⟨[[mkCell "x"]]⟩]
        false true "/" "2025-10-12" "10-00-00"
      = [⟨mainReportFilename "/" "2025-10-12" "10-00-00",
          [Block.para ⟨[{ text := "a" }], true⟩, Block.table ⟨[[mkCell "x"]]⟩], false⟩,
         ⟨fallbackReportFilename "/" "2025-10-12" "10-00-00",
          simplifyDocument [Block.para ⟨[{ text := "a" }], true⟩, Block.table ⟨[[mkCell "x"]]⟩],
          true⟩]
    ∧ mainReportFilename "/" "2025-10-12" "10-00-00"
        ≠ fallbackReportFilename "/" "2025-10-12" "10-00-00"
    ∧ (simplifyTable ⟨[[mkCell "x"]]⟩).cellTexts = Table.cellTexts ⟨[[mkCell "x"]]⟩ := by
  have h := C3_save_fallback
    [Block.para ⟨[{ text := "a" }], true⟩, Block.table ⟨[[mkCell "x"]]⟩]
    true "/" "2025-10-12" "10-00-00"
  exact ⟨h.2.1, h.2.2.1, (h.2.2.2.2 ⟨[[mkCell "x"]]⟩ (by decide)).1⟩


end WeeklyReport
